import Mathlib

/-!
Verification of the agentic code-index repository: shallow embedding of the
chunker (`CodeIndexer._create_chunks`), the function-span extractor boundary
(`CodeIndexer._parse_functions`), the index build (`CodeIndexer.index`), the
searcher (`CodeSearcher.search`) and the agent loop (`Agent.query`), together
with theorems settling the specification claims.
-/

namespace CodeIndex

/-- A function span as returned by the span extractor: `function_name`,
1-based `start_line` and `end_line`.  Line numbers come from model-produced
JSON integers, so they are arbitrary `Int`s. -/
structure Span where
  function_name : String
  start_line : Int
  end_line : Int
deriving DecidableEq, Repr

/-- A chunk dict as built by `CodeIndexer._create_chunks`: `type` is
`"file"` or `"function"`; `function_name` is present iff the chunk is a
function chunk (absent key modelled as `none`). -/
structure Chunk where
  type : String
  file_path : String
  function_name : Option String
  content : String
  start_line : Int
  end_line : Int
deriving DecidableEq, Repr

/-- Split a character list at every `'\n'`; the result always has one more
element than the number of newlines, so it is never empty. -/
def splitCharLines : List Char → List (List Char)
  | [] => [[]]
  | c :: rest =>
    if c = '\n' then [] :: splitCharLines rest
    else
      match splitCharLines rest with
      | [] => [[c]]
      | l :: ls => (c :: l) :: ls

/-- Python `content.split('\n')`. -/
def splitLines (content : String) : List String :=
  (splitCharLines content.data).map String.mk

/-- Python `'\n'.join(lines)`. -/
def joinLines : List String → String
  | [] => ""
  | [l] => l
  | l :: ls => l ++ "\n" ++ joinLines ls

/-- Normalisation of one Python slice endpoint for a list of length `len`:
negative indices count from the end (clamped below at 0), non-negative ones
are clamped above at `len`. -/
def pyNormIndex (len : Nat) (i : Int) : Nat :=
  if i < 0 then ((len : Int) + i).toNat else min i.toNat len

/-- Python `l[a:b]` (step 1) on a list. -/
def pySlice {α : Type} (l : List α) (a b : Int) : List α :=
  (l.take (pyNormIndex l.length b)).drop (pyNormIndex l.length a)

/-- The file-kind chunk built at the top of `_create_chunks`. -/
def fileChunk (file_path content : String) : Chunk :=
  { type := "file"
    file_path := file_path
    function_name := none
    content := content
    start_line := 1
    end_line := (splitLines content).length }

/-- One function-kind chunk of `_create_chunks`: with `start = start_line - 1`
and `end = end_line`, the content is `'\n'.join(lines[start:end])` and the
span's line numbers are copied verbatim. -/
def funcChunk (file_path content : String) (f : Span) : Chunk :=
  let lines := splitLines content
  { type := "function"
    file_path := file_path
    function_name := some f.function_name
    content := joinLines (pySlice lines (f.start_line - 1) f.end_line)
    start_line := f.start_line
    end_line := f.end_line }

/-- `CodeIndexer._create_chunks`: the file chunk followed by one function
chunk per span, in span order. -/
def createChunks (file_path content : String) (functions : List Span) : List Chunk :=
  fileChunk file_path content :: functions.map (funcChunk file_path content)

/-- Written from the spec's words, for comparison with the code: the
inclusive 1-based line slice `[s, e]` of `content`, clamped to the lines the
file actually has. -/
def specLineSlice (content : String) (s e : Int) : String :=
  let lines := splitLines content
  joinLines ((lines.take e.toNat).drop (s - 1).toNat)

theorem splitCharLines_ne_nil (cs : List Char) : splitCharLines cs ≠ [] := by
  induction cs with
  | nil => simp [splitCharLines]
  | cons c rest ih =>
    simp only [splitCharLines]
    split
    · simp
    · cases h : splitCharLines rest with
      | nil => simp
      | cons l ls => simp

theorem splitLines_ne_nil (content : String) : splitLines content ≠ [] := by
  simp [splitLines, splitCharLines_ne_nil]

example : splitLines "a\nb\nc" = ["a", "b", "c"] := by decide
example : splitLines "" = [""] := by decide
example : pySlice ["a", "b", "c"] 1 3 = ["b", "c"] := by decide
example : pySlice ["a", "b", "c"] (-1) 2 = [] := by decide
example : pySlice ["a", "b"] (-1) 5 = ["b"] := by decide
example : (funcChunk "a.py" "a\nb\nc" ⟨"g", 0, 2⟩).content = "" := by decide
example : specLineSlice "a\nb\nc" 0 2 = "a\nb" := by decide

theorem pySlice_of_nonneg {α : Type} (l : List α) (a b : Int) (ha : 0 ≤ a) (hb : 0 ≤ b) :
    pySlice l a b = (l.take b.toNat).drop a.toNat := by
  unfold pySlice pyNormIndex
  rw [if_neg (by omega), if_neg (by omega)]
  have htake : l.take (min b.toNat l.length) = l.take b.toNat := by
    rcases le_total b.toNat l.length with h | h
    · rw [Nat.min_eq_left h]
    · rw [Nat.min_eq_right h, List.take_length, List.take_of_length_le h]
  rw [htake]
  rcases le_total a.toNat l.length with h | h
  · rw [Nat.min_eq_left h]
  · rw [Nat.min_eq_right h, List.drop_eq_nil_iff.mpr, List.drop_eq_nil_iff.mpr]
    · simp only [List.length_take]
      omega
    · simp only [List.length_take]
      omega

theorem funcChunk_content_clamped (fp content : String) (f : Span)
    (hs : 1 ≤ f.start_line) (he : 0 ≤ f.end_line) :
    (funcChunk fp content f).content = specLineSlice content f.start_line f.end_line := by
  unfold funcChunk specLineSlice
  simp only
  rw [pySlice_of_nonneg _ _ _ (by omega) he]

/-- C2 (amended). For every input, the chunker emits the file chunk first,
with `start_line = 1`, `end_line` the number of lines, and the whole text as
content, followed by exactly one function chunk per span in span order; and
for every span with `start_line ≥ 1` and `end_line ≥ 0`, the function
chunk's content is the inclusive line slice `[start_line, end_line]` clamped
to the lines the file has.  (Determinism is definitional: the embedding is a
pure function of its inputs.) -/
theorem C2_chunker_shape (fp content : String) (functions : List Span) :
    (createChunks fp content functions).length = 1 + functions.length
    ∧ (createChunks fp content functions).head? = some (fileChunk fp content)
    ∧ (fileChunk fp content).content = content
    ∧ (fileChunk fp content).start_line = 1
    ∧ (fileChunk fp content).end_line = (splitLines content).length
    ∧ (createChunks fp content functions).tail = functions.map (funcChunk fp content)
    ∧ ∀ f ∈ functions, 1 ≤ f.start_line → 0 ≤ f.end_line →
        (funcChunk fp content f).content = specLineSlice content f.start_line f.end_line := by
  refine ⟨by simp [createChunks, Nat.add_comm], rfl, rfl, rfl, rfl, rfl, ?_⟩
  intro f _ hs he
  exact funcChunk_content_clamped fp content f hs he

/-- C2 witness: concrete instance of the amended chunker theorem. -/
theorem C2_chunker_shape_witness :
    (createChunks "a.py" "l1\nl2\nl3" [⟨"f", 2, 3⟩]).length = 2
    ∧ (funcChunk "a.py" "l1\nl2\nl3" ⟨"f", 2, 3⟩).content = specLineSlice "l1\nl2\nl3" 2 3 := by
  have h := C2_chunker_shape "a.py" "l1\nl2\nl3" [⟨"f", 2, 3⟩]
  exact ⟨h.1, h.2.2.2.2.2.2 ⟨"f", 2, 3⟩ (by simp) (by decide) (by decide)⟩

/-- C2 counterexample: on the span `(start_line 0, end_line 2)` over the
3-line file `"a\nb\nc"` the produced function chunk's content is `""`,
which is not the inclusive line slice `[0, 2]` of the file (`"a\nb"` under
the clamped reading): the claim's content clause fails for spans with
`start_line < 1`. -/
theorem C2_counterexample :
    (createChunks "a.py" "a\nb\nc" [⟨"g", 0, 2⟩]).length = 2
    ∧ ((createChunks "a.py" "a\nb\nc" [⟨"g", 0, 2⟩])[1]?.map Chunk.content) = some ""
    ∧ specLineSlice "a\nb\nc" 0 2 = "a\nb"
    ∧ ("" : String) ≠ "a\nb" := by decide

/-- C3 (amended). When every input span is in range
(`1 ≤ start_line ≤ end_line ≤` line count), every function-kind chunk the
chunker produces satisfies the line-range invariant.  The chunker copies the
span's line numbers verbatim, so the invariant does not hold for
out-of-range input spans (see the counterexample). -/
theorem C3_line_invariant (fp content : String) (functions : List Span)
    (h : ∀ f ∈ functions, 1 ≤ f.start_line ∧ f.start_line ≤ f.end_line
          ∧ f.end_line ≤ ((splitLines content).length : Int)) :
    ∀ c ∈ createChunks fp content functions, c.type = "function" →
      1 ≤ c.start_line ∧ c.start_line ≤ c.end_line
      ∧ c.end_line ≤ ((splitLines content).length : Int) := by
  intro c hc hty
  rcases List.mem_cons.mp hc with hfile | hfun
  · exfalso
    rw [hfile] at hty
    simp [fileChunk] at hty
  · rcases List.mem_map.mp hfun with ⟨f, hf, rfl⟩
    simpa [funcChunk] using h f hf

/-- C3 witness: concrete instance of the amended invariant. -/
theorem C3_line_invariant_witness :
    1 ≤ (funcChunk "a.py" "a\nb" ⟨"f", 1, 2⟩).start_line
    ∧ (funcChunk "a.py" "a\nb" ⟨"f", 1, 2⟩).start_line
        ≤ (funcChunk "a.py" "a\nb" ⟨"f", 1, 2⟩).end_line
    ∧ (funcChunk "a.py" "a\nb" ⟨"f", 1, 2⟩).end_line
        ≤ ((splitLines "a\nb").length : Int) := by
  refine C3_line_invariant "a.py" "a\nb" [⟨"f", 1, 2⟩] ?_ _ ?_ rfl
  · intro f hf
    rcases List.mem_singleton.mp hf with rfl
    refine ⟨by decide, by decide, by decide⟩
  · simp [createChunks]

/-- C3 counterexample: the span `(5, 10)` on the one-line file `"x"` yields
a function chunk whose recorded `end_line = 10` exceeds the file's line
count `1`, so the invariant fails for out-of-range input spans. -/
theorem C3_counterexample :
    ∃ c ∈ createChunks "a.py" "x" [⟨"g", 5, 10⟩],
      c.type = "function" ∧ c.end_line = 10 ∧ (splitLines "x").length = 1
      ∧ ¬(c.end_line ≤ ((splitLines "x").length : Int)) := by decide

/-- C4 (amended). Building a function chunk never fails and never reads
beyond the file text: the content is always the join of a contiguous
sub-list of the file's lines; and for spans with `start_line ≥ 1` whose
`end_line` exceeds the line count, the content is exactly the lines from
`start_line` to the end of the file.  For spans with `start_line < 1` the
content is not that clamped slice (see the counterexample). -/
theorem C4_clamping (fp content : String) (f : Span) :
    (∃ a b : Nat,
        (funcChunk fp content f).content = joinLines (((splitLines content).drop a).take b))
    ∧ (1 ≤ f.start_line → ((splitLines content).length : Int) < f.end_line →
        (funcChunk fp content f).content
          = joinLines ((splitLines content).drop (f.start_line - 1).toNat)) := by
  constructor
  · refine ⟨pyNormIndex (splitLines content).length (f.start_line - 1),
      pyNormIndex (splitLines content).length f.end_line
        - pyNormIndex (splitLines content).length (f.start_line - 1), ?_⟩
    unfold funcChunk pySlice
    simp only [List.drop_take]
  · intro hs he
    unfold funcChunk
    simp only
    rw [pySlice_of_nonneg _ _ _ (by omega) (by omega)]
    have htake : (splitLines content).take f.end_line.toNat = splitLines content :=
      List.take_of_length_le (by omega)
    rw [htake]

/-- C4 witness: concrete instance of the amended clamping theorem. -/
theorem C4_clamping_witness :
    (funcChunk "a.py" "a\nb" ⟨"f", 1, 5⟩).content
      = joinLines ((splitLines "a\nb").drop 0) := by
  exact (C4_clamping "a.py" "a\nb" ⟨"f", 1, 5⟩).2 (by decide) (by decide)

/-- C4 counterexample: the span `(0, 5)` on the 2-line file `"a\nb"` has
`end_line = 5` beyond the file length; the chunk is produced (not dropped)
but its content is `"b"`, not the clamped slice "lines from `start_line`
up to the end of the file" (`"a\nb"`), so the claim as stated fails for
spans with `start_line < 1`. -/
theorem C4_counterexample :
    (createChunks "a.py" "a\nb" [⟨"g", 0, 5⟩]).length = 2
    ∧ ((createChunks "a.py" "a\nb" [⟨"g", 0, 5⟩])[1]?.map Chunk.content) = some "b"
    ∧ specLineSlice "a\nb" 0 5 = "a\nb"
    ∧ joinLines ((splitLines "a\nb").drop 0) = "a\nb"
    ∧ ("b" : String) ≠ "a\nb" := by decide

/-- The metadata dict written at the end of `CodeIndexer.index`. -/
structure Metadata where
  codebase_path : String
  total_files : Nat
  total_chunks : Nat
  file_chunks : Nat
  function_chunks : Nat
  chunks : List Chunk
deriving DecidableEq, Repr

/-- The artifacts of the embedding/index-building stage of
`CodeIndexer.index` (lines 174-221 of `indexing.py`): the kind-partitioned
chunk lists, the vectors added (in order) to the two FAISS indices, and the
metadata.  `E` is the embedding vector type and `embed` the embedding
client, which returns one vector per input text in input order. -/
structure IndexBuild (E : Type) where
  fileChunks : List Chunk
  functionChunks : List Chunk
  fileVectors : List E
  functionVectors : List E
  metadata : Metadata
deriving DecidableEq, Repr

/-- `CodeIndexer.index` from the collected `all_chunks` onward: partition by
kind, embed each kind's contents in order, record metadata. -/
def buildIndex {E : Type} (embed : String → E) (codebase_path : String)
    (total_files : Nat) (allChunks : List Chunk) : IndexBuild E :=
  let file_chunks := allChunks.filter (fun c => c.type == "file")
  let function_chunks := allChunks.filter (fun c => c.type == "function")
  { fileChunks := file_chunks
    functionChunks := function_chunks
    fileVectors := (file_chunks.map Chunk.content).map embed
    functionVectors := (function_chunks.map Chunk.content).map embed
    metadata :=
      { codebase_path := codebase_path
        total_files := total_files
        total_chunks := allChunks.length
        file_chunks := file_chunks.length
        function_chunks := function_chunks.length
        chunks := allChunks } }

/-- The state of a `CodeSearcher` after `_load_indices`: a missing
`metadata.json` or a missing per-kind FAISS file leaves the corresponding
field `None`. -/
structure SearcherState (E : Type) where
  metadata : Option Metadata
  file_index : Option (List E)
  function_index : Option (List E)
deriving DecidableEq, Repr

/-- The searcher state obtained by loading an index directory produced by
`buildIndex`: the builder writes a kind's FAISS file only when that kind has
at least one embedding, so an absent file loads as `None`. -/
def loadFromBuild {E : Type} (b : IndexBuild E) : SearcherState E :=
  { metadata := some b.metadata
    file_index := if b.fileVectors.length > 0 then some b.fileVectors else none
    function_index := if b.functionVectors.length > 0 then some b.functionVectors else none }

/-- One result dict of `CodeSearcher.search`.  The `distance` passed through
from the nearest-neighbor lookup is modelled as an `Int`. -/
structure SearchResult where
  file_path : String
  content : String
  distance : Int
  type : String
  function_name : Option String
  start_line : Int
  end_line : Int
deriving DecidableEq, Repr

/-- The result dict built for one returned position: `function_name` is set
only for function-kind results. -/
def buildResult (chunk_type : String) (d : Int) (c : Chunk) : SearchResult :=
  { file_path := c.file_path
    content := c.content
    distance := d
    type := chunk_type
    function_name := if chunk_type == "function" then c.function_name else none
    start_line := c.start_line
    end_line := c.end_line }

/-- The per-kind part of `CodeSearcher.search` after index selection:
return `[]` for an absent or empty structure, otherwise look up
`min(top_k, ntotal)` neighbors and keep each returned position that is
below the kind-filtered chunk-list length.  `faiss` models the external
nearest-neighbor lookup, returning (distance, position) pairs. -/
def searchIndex {E : Type} (faiss : List E → E → Nat → List (Int × Nat))
    (md : Metadata) (idxOpt : Option (List E)) (chunk_type : String)
    (query_embedding : E) (top_k : Nat) : List SearchResult :=
  match idxOpt with
  | none => []
  | some vecs =>
    if vecs.length = 0 then []
    else
      let nn := faiss vecs query_embedding (min top_k vecs.length)
      let typed_chunks := md.chunks.filter (fun c => c.type == chunk_type)
      nn.filterMap (fun p => (typed_chunks[p.2]?).map (buildResult chunk_type p.1))

/-- `CodeSearcher.search`: empty result when no metadata was loaded or the
`index_type` is neither `"file"` nor `"function"`; otherwise dispatch to the
selected kind's structure. -/
def search {E : Type} (embed : String → E)
    (faiss : List E → E → Nat → List (Int × Nat)) (st : SearcherState E)
    (question : String) (index_type : String) (top_k : Nat) : List SearchResult :=
  match st.metadata with
  | none => []
  | some md =>
    let query_embedding := embed question
    if index_type == "file" then
      searchIndex faiss md st.file_index "file" query_embedding top_k
    else if index_type == "function" then
      searchIndex faiss md st.function_index "function" query_embedding top_k
    else []

/-- The vectors added to the kind-`kind` FAISS index by `buildIndex`. -/
def kindVectors {E : Type} (b : IndexBuild E) (kind : String) : List E :=
  if kind = "file" then b.fileVectors else b.functionVectors

theorem getElem?_map_map {E : Type} (embed : String → E) (l : List Chunk) (i : Nat) :
    ((l.map Chunk.content).map embed)[i]? = (l[i]?).map (fun c => embed c.content) := by
  simp [List.getElem?_map]
  rfl

theorem kindVectors_eq {E : Type} (embed : String → E) (cp : String) (tf : Nat)
    (allChunks : List Chunk) (it : String) (hit : it = "file" ∨ it = "function") :
    kindVectors (buildIndex embed cp tf allChunks) it
      = ((allChunks.filter (fun c => c.type == it)).map Chunk.content).map embed := by
  rcases hit with rfl | rfl <;> simp [kindVectors, buildIndex]

theorem mem_searchIndex {E : Type} (faiss : List E → E → Nat → List (Int × Nat))
    (md : Metadata) (idxOpt : Option (List E)) (ct : String) (qe : E) (top_k : Nat)
    (r : SearchResult) (hr : r ∈ searchIndex faiss md idxOpt ct qe top_k) :
    ∃ vecs, idxOpt = some vecs
      ∧ ∃ d idx c, (d, idx) ∈ faiss vecs qe (min top_k vecs.length)
          ∧ (md.chunks.filter (fun c => c.type == ct))[idx]? = some c
          ∧ r = buildResult ct d c := by
  cases idxOpt with
  | none => simp [searchIndex] at hr
  | some vecs =>
    refine ⟨vecs, rfl, ?_⟩
    by_cases hlen : vecs.length = 0
    · simp [searchIndex, hlen] at hr
    · simp only [searchIndex, if_neg hlen] at hr
      obtain ⟨p, hp, hsome⟩ := List.mem_filterMap.mp hr
      obtain ⟨c, hc, hb⟩ := Option.map_eq_some'.mp hsome
      exact ⟨p.1, p.2, c, by simpa using hp, hc, hb.symm⟩

theorem searchIndex_aligned {E : Type} (embed : String → E)
    (faiss : List E → E → Nat → List (Int × Nat)) (cp : String) (tf : Nat)
    (allChunks : List Chunk) (ct : String) (qe : E) (top_k : Nat) (vecsB : List E)
    (hB : vecsB = ((allChunks.filter (fun c => c.type == ct)).map Chunk.content).map embed) :
    ∀ r ∈ searchIndex faiss (buildIndex embed cp tf allChunks).metadata
        (if vecsB.length > 0 then some vecsB else none) ct qe top_k,
      ∃ d idx c, (d, idx) ∈ faiss vecsB qe (min top_k vecsB.length)
        ∧ (allChunks.filter (fun c => c.type == ct))[idx]? = some c
        ∧ r = buildResult ct d c
        ∧ vecsB[idx]? = some (embed c.content) := by
  intro r hr
  by_cases h0 : vecsB.length > 0
  · rw [if_pos h0] at hr
    obtain ⟨vecs, hvecs, d, idx, c, hfa, hc, hrr⟩ := mem_searchIndex _ _ _ _ _ _ _ hr
    obtain rfl : vecsB = vecs := Option.some.inj hvecs
    have hc' : (allChunks.filter (fun c => c.type == ct))[idx]? = some c := hc
    refine ⟨d, idx, c, hfa, hc', hrr, ?_⟩
    rw [hB, getElem?_map_map, hc']
    rfl
  · rw [if_neg h0] at hr
    simp [searchIndex] at hr

/-- C1: alignment invariant.  For every built index and each kind
`K ∈ {file, function}`, the `i`-th vector added to the kind-`K`
nearest-neighbor structure by `CodeIndexer.index` is the embedding of the
`i`-th element of the kind-`K`-filtered, order-preserved chunk list stored
in metadata; and every result `CodeSearcher.search` returns for kind `K`
comes from a position `idx` returned by the lookup, is built from the
`idx`-th kind-`K` metadata chunk, and that chunk's content is exactly the
text whose embedding sits at position `idx` of the structure. -/
theorem C1_index_search_alignment {E : Type} (embed : String → E)
    (faiss : List E → E → Nat → List (Int × Nat)) (cp q : String)
    (tf top_k : Nat) (allChunks : List Chunk) (it : String)
    (hit : it = "file" ∨ it = "function") :
    (∀ i, i < (kindVectors (buildIndex embed cp tf allChunks) it).length →
        ∃ c, (allChunks.filter (fun c => c.type == it))[i]? = some c
          ∧ (kindVectors (buildIndex embed cp tf allChunks) it)[i]?
              = some (embed c.content))
    ∧ ∀ r ∈ search embed faiss (loadFromBuild (buildIndex embed cp tf allChunks)) q it top_k,
        ∃ d idx c,
          (d, idx) ∈ faiss (kindVectors (buildIndex embed cp tf allChunks) it) (embed q)
              (min top_k (kindVectors (buildIndex embed cp tf allChunks) it).length)
          ∧ (allChunks.filter (fun c => c.type == it))[idx]? = some c
          ∧ r = buildResult it d c
          ∧ (kindVectors (buildIndex embed cp tf allChunks) it)[idx]?
              = some (embed c.content) := by
  have hv := kindVectors_eq embed cp tf allChunks it hit
  constructor
  · intro i hi
    rw [hv] at hi
    simp only [List.length_map] at hi
    refine ⟨(allChunks.filter (fun c => c.type == it))[i],
      List.getElem?_eq_getElem hi, ?_⟩
    rw [hv, getElem?_map_map, List.getElem?_eq_getElem hi]
    rfl
  · intro r hr
    rcases hit with rfl | rfl
    · have hkv : kindVectors (buildIndex embed cp tf allChunks) "file"
          = (buildIndex embed cp tf allChunks).fileVectors := by
        simp [kindVectors]
      have hr' : r ∈ searchIndex faiss (buildIndex embed cp tf allChunks).metadata
          (if (buildIndex embed cp tf allChunks).fileVectors.length > 0
            then some (buildIndex embed cp tf allChunks).fileVectors else none)
          "file" (embed q) top_k := hr
      obtain ⟨d, idx, c, hfa, hc, hrr, hvec⟩ :=
        searchIndex_aligned embed faiss cp tf allChunks "file" (embed q) top_k
          (buildIndex embed cp tf allChunks).fileVectors rfl r hr'
      rw [hkv]
      exact ⟨d, idx, c, hfa, hc, hrr, hvec⟩
    · have hkv : kindVectors (buildIndex embed cp tf allChunks) "function"
          = (buildIndex embed cp tf allChunks).functionVectors := by
        simp [kindVectors]
      have hr' : r ∈ searchIndex faiss (buildIndex embed cp tf allChunks).metadata
          (if (buildIndex embed cp tf allChunks).functionVectors.length > 0
            then some (buildIndex embed cp tf allChunks).functionVectors else none)
          "function" (embed q) top_k := hr
      obtain ⟨d, idx, c, hfa, hc, hrr, hvec⟩ :=
        searchIndex_aligned embed faiss cp tf allChunks "function" (embed q) top_k
          (buildIndex embed cp tf allChunks).functionVectors rfl r hr'
      rw [hkv]
      exact ⟨d, idx, c, hfa, hc, hrr, hvec⟩

/-- C1 witness: on a concrete 2-chunk build, position 0 of the function
structure holds the embedding of the 0-th function chunk's content. -/
theorem C1_index_search_alignment_witness :
    (kindVectors (buildIndex (fun s : String => s) "cb" 1
        (createChunks "a.py" "x\ny" [⟨"f", 1, 2⟩])) "function")[0]?
      = some (funcChunk "a.py" "x\ny" ⟨"f", 1, 2⟩).content := by
  obtain ⟨c, hc, hvec⟩ :=
    (C1_index_search_alignment (fun s : String => s) (fun _ _ _ => [((0 : Int), 0)])
      "cb" "q" 1 5 (createChunks "a.py" "x\ny" [⟨"f", 1, 2⟩]) "function"
      (Or.inr rfl)).1 0 (by decide)
  have hc' : c = funcChunk "a.py" "x\ny" ⟨"f", 1, 2⟩ := by
    have hconc : ((createChunks "a.py" "x\ny" [⟨"f", 1, 2⟩]).filter
        (fun c => c.type == "function"))[0]? = some (funcChunk "a.py" "x\ny" ⟨"f", 1, 2⟩) := by
      decide
    rw [hc] at hconc
    exact Option.some.inj hconc
  rw [hvec, hc']

/-- C5: `CodeSearcher.search` returns `[]` (and, being total, cannot raise)
whenever no metadata was loaded, or the `index_type` is neither `"file"`
nor `"function"`, or the selected kind's structure is absent or holds zero
vectors; in particular searching the function index of a build with zero
function chunks returns `[]`, because the builder writes no function
structure and the loader leaves it absent. -/
theorem C5_search_empty_cases {E : Type} (embed : String → E)
    (faiss : List E → E → Nat → List (Int × Nat)) (q it : String) (top_k : Nat) :
    (∀ st : SearcherState E, st.metadata = none →
        search embed faiss st q it top_k = [])
    ∧ (it ≠ "file" → it ≠ "function" → ∀ st : SearcherState E,
        search embed faiss st q it top_k = [])
    ∧ (∀ st : SearcherState E, st.file_index = none ∨ st.file_index = some [] →
        search embed faiss st q "file" top_k = [])
    ∧ (∀ st : SearcherState E, st.function_index = none ∨ st.function_index = some [] →
        search embed faiss st q "function" top_k = [])
    ∧ (∀ (cp : String) (tf : Nat) (allChunks : List Chunk),
        allChunks.filter (fun c => c.type == "function") = [] →
        search embed faiss (loadFromBuild (buildIndex embed cp tf allChunks))
          q "function" top_k = []) := by
  refine ⟨?_, ?_, ?_, ?_, ?_⟩
  · intro st h
    simp [search, h]
  · intro h1 h2 st
    have hb1 : (it == "file") = false := beq_eq_false_iff_ne.mpr h1
    have hb2 : (it == "function") = false := beq_eq_false_iff_ne.mpr h2
    cases hm : st.metadata with
    | none => simp [search, hm]
    | some md => simp [search, hm, hb1, hb2]
  · intro st h
    cases hm : st.metadata with
    | none => simp [search, hm]
    | some md =>
      rcases h with h | h <;> simp [search, hm, h, searchIndex]
  · intro st h
    cases hm : st.metadata with
    | none => simp [search, hm]
    | some md =>
      rcases h with h | h <;> simp [search, hm, h, searchIndex]
  · intro cp tf allChunks h
    have hfv : (buildIndex embed cp tf allChunks).functionVectors = [] := by
      simp [buildIndex, h]
    have hfi : (loadFromBuild (buildIndex embed cp tf allChunks)).function_index = none := by
      simp [loadFromBuild, hfv]
    have hm : (loadFromBuild (buildIndex embed cp tf allChunks)).metadata
        = some (buildIndex embed cp tf allChunks).metadata := rfl
    simp [search, hm, hfi, searchIndex]

/-- C5 witness: concrete empty-result searches — missing metadata, an
invalid index type, and a build with zero function chunks. -/
theorem C5_search_empty_cases_witness :
    search (fun _ : String => (0 : Nat)) (fun _ _ _ => []) ⟨none, none, none⟩ "q" "file" 5 = []
    ∧ search (fun _ : String => (0 : Nat)) (fun _ _ _ => [])
        ⟨some ⟨"cb", 0, 0, 0, 0, []⟩, none, none⟩ "q" "class" 5 = []
    ∧ search (fun _ : String => (0 : Nat)) (fun _ _ _ => [])
        (loadFromBuild (buildIndex (fun _ : String => (0 : Nat)) "cb" 1
          [fileChunk "a.py" "x"])) "q" "function" 5 = [] := by
  refine ⟨?_, ?_, ?_⟩
  · exact (C5_search_empty_cases (fun _ : String => (0 : Nat)) (fun _ _ _ => [])
      "q" "file" 5).1 ⟨none, none, none⟩ rfl
  · exact (C5_search_empty_cases (fun _ : String => (0 : Nat)) (fun _ _ _ => [])
      "q" "class" 5).2.1 (by decide) (by decide) _
  · exact (C5_search_empty_cases (fun _ : String => (0 : Nat)) (fun _ _ _ => [])
      "q" "function" 5).2.2.2.2 "cb" 1 [fileChunk "a.py" "x"] (by decide)

/-- The outcome of the single language-model call plus `json.loads` step
inside `CodeIndexer._parse_functions`: `failure` models any raised
exception (API error, timeout, malformed JSON content), `decodedSpans` a
decoded list of span objects, `decodedOther` a decoded value that is not
such a list. -/
inductive ExtractOutcome where
  | failure (msg : String)
  | decodedSpans (functions : List Span)
  | decodedOther
deriving DecidableEq, Repr

/-- `CodeIndexer._parse_functions` on the outcome of its one call: the
`except` arm returns `[]`, the `isinstance(result, list)` guard returns
`[]` for a non-list value, otherwise the decoded spans. -/
def parseFunctions : ExtractOutcome → List Span
  | .failure _ => []
  | .decodedSpans fs => fs
  | .decodedOther => []

/-- `CodeIndexer._process_single_file` (src/src/indexing.py) after a
successful file read: files over 50000 characters get only the file chunk;
otherwise span extraction then chunking. -/
def processSingleFile (file_path content : String) (outcome : ExtractOutcome) : List Chunk :=
  if content.length > 50000 then
    [fileChunk file_path content]
  else
    createChunks file_path content (parseFunctions outcome)

/-- C6: on any failure of the span-extraction step — a raised exception
(API error, timeout, malformed JSON content), or decoded content that is
valid JSON but not a list (the `isinstance(result, list)` guard) — the
extractor returns `[]` instead of propagating, and the file's file-kind
chunk is still produced (first, and alone) by the subsequent chunking step.
The embedding passes the single call outcome into `parseFunctions`,
mirroring the source's single call site inside one `try` — there is no
retry path. -/
theorem C6_extractor_degrades (msg file_path content : String) :
    parseFunctions (.failure msg) = []
    ∧ parseFunctions .decodedOther = []
    ∧ processSingleFile file_path content (.failure msg) = [fileChunk file_path content]
    ∧ processSingleFile file_path content .decodedOther = [fileChunk file_path content]
    ∧ (processSingleFile file_path content (.failure msg)).head?
        = some (fileChunk file_path content)
    ∧ (processSingleFile file_path content .decodedOther).head?
        = some (fileChunk file_path content) := by
  have h2 : processSingleFile file_path content (.failure msg)
      = [fileChunk file_path content] := by
    unfold processSingleFile
    split
    · rfl
    · rfl
  have h3 : processSingleFile file_path content .decodedOther
      = [fileChunk file_path content] := by
    unfold processSingleFile
    split
    · rfl
    · rfl
  exact ⟨rfl, rfl, h2, h3, by rw [h2]; rfl, by rw [h3]; rfl⟩

/-- One worker task's input in the parallel `CodeIndexer.index`: the file's
path, its text, and the outcome of its span-extraction call. -/
structure FileInput where
  path : String
  content : String
  outcome : ExtractOutcome
deriving DecidableEq, Repr

/-- The collection loop of the parallel `CodeIndexer.index`
(src/src/indexing.py, `as_completed`): `all_chunks` is extended with each
completed task's chunks in worker completion order, so the collected list
is the concatenation of per-file chunk lists in that order. -/
def collectChunks (completed : List FileInput) : List Chunk :=
  (completed.map (fun f => processSingleFile f.path f.content f.outcome)).flatten

/-- C9 counterexample: two completion orders of the same two files — the
sorted submission order and its swap — give different file-kind chunk
lists, so the per-kind chunk order is not independent of worker completion
order and does not always equal the sequential sorted-path order. -/
theorem C9_counterexample :
    List.Perm
      [(⟨"b.py", "b", .decodedSpans []⟩ : FileInput), ⟨"a.py", "a", .decodedSpans []⟩]
      [⟨"a.py", "a", .decodedSpans []⟩, ⟨"b.py", "b", .decodedSpans []⟩]
    ∧ (collectChunks
        [⟨"b.py", "b", .decodedSpans []⟩, ⟨"a.py", "a", .decodedSpans []⟩]).filter
          (fun c => c.type == "file")
      ≠ (collectChunks
        [⟨"a.py", "a", .decodedSpans []⟩, ⟨"b.py", "b", .decodedSpans []⟩]).filter
          (fun c => c.type == "file") := by
  constructor
  · exact List.Perm.swap _ _ _
  · decide

/-- C9 (amended): for every completion order that is a permutation of the
sorted file list, the collected per-kind chunk list is a permutation of the
sequential sorted-order one (each file's chunks stay together and in
order), but its order does depend on the completion order — the lists
themselves can differ, as the counterexample shows. -/
theorem C9_order_permutation (files perm : List FileInput)
    (hp : perm.Perm files) (kind : String) :
    ((collectChunks perm).filter (fun c => c.type == kind)).Perm
      ((collectChunks files).filter (fun c => c.type == kind)) := by
  unfold collectChunks
  exact ((hp.map _).flatten).filter _

/-- C9 witness: the amended permutation statement at the concrete two-file
completion orders of the counterexample. -/
theorem C9_order_permutation_witness :
    ((collectChunks
        [(⟨"b.py", "b", .decodedSpans []⟩ : FileInput), ⟨"a.py", "a", .decodedSpans []⟩]).filter
          (fun c => c.type == "file")).Perm
      ((collectChunks
        [⟨"a.py", "a", .decodedSpans []⟩, ⟨"b.py", "b", .decodedSpans []⟩]).filter
          (fun c => c.type == "file")) :=
  C9_order_permutation
    [⟨"a.py", "a", .decodedSpans []⟩, ⟨"b.py", "b", .decodedSpans []⟩]
    [⟨"b.py", "b", .decodedSpans []⟩, ⟨"a.py", "a", .decodedSpans []⟩]
    (List.Perm.swap _ _ _) "file"

/-- One tool call of an assistant message (id, function name, raw JSON
argument string). -/
structure ToolCall where
  id : String
  name : String
  arguments : String
deriving DecidableEq, Repr

/-- One model response per round: optional text content and the tool calls
(`assistant_message.tool_calls or []`). -/
structure Response where
  content : Option String
  toolCalls : List ToolCall
deriving DecidableEq, Repr

/-- The `FinalAnswer` pydantic model: answer text, confidence literal,
source list, optional reasoning. -/
structure FinalAnswer where
  answer : String
  confidence : String
  sources : List String
  reasoning : Option String
deriving DecidableEq, Repr

/-- The outcome of `json.loads` plus `FinalAnswer(**data)` on a content
string: `notJson` models a `JSONDecodeError`, `invalid` a pydantic
`ValidationError`, `valid` a validated answer.  The loop is parametric in
this decoder, which belongs to the Python standard library and pydantic,
not to the repository. -/
inductive DecodeResult where
  | notJson
  | invalid
  | valid (fa : FinalAnswer)
deriving DecidableEq, Repr

/-- One turn of `conversation_history`. -/
inductive Turn where
  | user (content : String)
  | assistant (content : Option String) (toolCalls : List ToolCall)
  | tool (toolCallId : String) (name : String) (content : String)
deriving DecidableEq, Repr

/-- Terminal outcome of `Agent.query`: a returned `FinalAnswer` or a raised
`RuntimeError` with its message. -/
inductive QueryResult where
  | final (fa : FinalAnswer)
  | failed (msg : String)
deriving DecidableEq, Repr

/-- Python truthiness of `assistant_message.content`: `None` and `""` are
falsy. -/
def truthyContent : Option String → Option String
  | none => none
  | some c => if c = "" then none else some c

/-- The final-round parsing block of `Agent.query`: no content raises;
valid JSON that validates is returned; a JSON-parse failure falls back to a
medium-confidence wrap of the raw content; a validation failure raises. -/
def finalStep (decode : String → DecodeResult) (resp : Response) : QueryResult :=
  match truthyContent resp.content with
  | some c =>
    match decode c with
    | .valid fa => .final fa
    | .notJson =>
      .final { answer := c, confidence := "medium", sources := [],
               reasoning := some "Structured output parsing failed, using raw content" }
    | .invalid => .failed "Failed to validate structured output"
  | none => .failed "No content in final response"

/-- The round loop of `Agent.query`.  `iter` is the current round number,
`fuel` the number of rounds left (`fuel = maxIterations - iter`; the final
round is the one entered with `fuel = 1`), `hist` the conversation history.
Each round appends the assistant turn; a non-final round with tool calls
appends one tool turn per call (`execTool` models tool dispatch, argument
parsing errors included) and continues; the final round runs the parsing
block; a non-final round with no tool calls returns the free text as a
high-confidence answer when it is truthy and otherwise just advances.
Exhausting the rounds raises. -/
def queryGo (decode : String → DecodeResult) (execTool : ToolCall → String)
    (responses : Nat → Response) :
    Nat → Nat → List Turn → QueryResult × List Turn
  | _, 0, hist => (.failed "Max iterations reached without final answer", hist)
  | iter, fuel + 1, hist =>
    let resp := responses iter
    let hist1 := hist ++ [Turn.assistant resp.content resp.toolCalls]
    if resp.toolCalls ≠ [] ∧ ¬ fuel = 0 then
      queryGo decode execTool responses (iter + 1) fuel
        (hist1 ++ resp.toolCalls.map (fun tc => Turn.tool tc.id tc.name (execTool tc)))
    else if fuel = 0 then
      (finalStep decode resp, hist1)
    else
      match truthyContent resp.content with
      | some c =>
        (.final { answer := c, confidence := "high", sources := [],
                  reasoning := some "Agent provided answer without using tools" }, hist1)
      | none => queryGo decode execTool responses (iter + 1) fuel hist1

/-- `Agent.query`: reset the conversation to the user question and run up
to `maxIterations` rounds. -/
def query (decode : String → DecodeResult) (execTool : ToolCall → String)
    (responses : Nat → Response) (maxIterations : Nat) (question : String) :
    QueryResult × List Turn :=
  queryGo decode execTool responses 0 maxIterations [Turn.user question]

theorem queryGo_fst_hist_irrel (decode : String → DecodeResult)
    (execTool : ToolCall → String) (responses : Nat → Response) :
    ∀ (fuel iter : Nat) (h1 h2 : List Turn),
      (queryGo decode execTool responses iter fuel h1).1
        = (queryGo decode execTool responses iter fuel h2).1 := by
  intro fuel
  induction fuel with
  | zero => intro iter h1 h2; rfl
  | succ n ih =>
    intro iter h1 h2
    simp only [queryGo]
    split
    · exact ih _ _ _
    · split
      · rfl
      · split
        · rfl
        · exact ih _ _ _

theorem queryGo_fst_skip_one (decode : String → DecodeResult)
    (execTool : ToolCall → String) (responses : Nat → Response)
    (iter fuel : Nat) (hist : List Turn) (hfuel : fuel ≠ 0)
    (hcond : (responses iter).toolCalls ≠ [] ∨ truthyContent (responses iter).content = none) :
    (queryGo decode execTool responses iter (fuel + 1) hist).1
      = (queryGo decode execTool responses (iter + 1) fuel hist).1 := by
  by_cases htc : (responses iter).toolCalls = []
  · have hcon : truthyContent (responses iter).content = none := by
      rcases hcond with h | h
      · exact absurd htc h
      · exact h
    simp only [queryGo, htc, hfuel]
    simp only [ne_eq, not_true_eq_false, false_and, if_false, if_neg hfuel, hcon]
    exact queryGo_fst_hist_irrel _ _ _ _ _ _ _
  · simp only [queryGo, if_pos (And.intro htc hfuel)]
    exact queryGo_fst_hist_irrel _ _ _ _ _ _ _

theorem queryGo_fst_skip_to (decode : String → DecodeResult)
    (execTool : ToolCall → String) (responses : Nat → Response) :
    ∀ (n iter fuel : Nat) (hist : List Turn), n < fuel →
      (∀ j, iter ≤ j → j < iter + n →
        ((responses j).toolCalls ≠ [] ∨ truthyContent (responses j).content = none)) →
      (queryGo decode execTool responses iter fuel hist).1
        = (queryGo decode execTool responses (iter + n) (fuel - n) hist).1 := by
  intro n
  induction n with
  | zero => intro iter fuel hist _ _; simp
  | succ n ih =>
    intro iter fuel hist hlt hcond
    obtain ⟨m, rfl⟩ : ∃ m, fuel = m + 1 := ⟨fuel - 1, by omega⟩
    have hm : m ≠ 0 := by omega
    have hstep := queryGo_fst_skip_one decode execTool responses iter m hist hm
      (hcond iter (le_refl _) (by omega))
    rw [hstep, ih (iter + 1) m hist (by omega)
      (fun j hj1 hj2 => hcond j (by omega) (by omega))]
    have h1 : iter + 1 + n = iter + (n + 1) := by omega
    have h2 : m - n = m + 1 - (n + 1) := by omega
    rw [h1, h2]

/-- C7: when the loop reaches the final round (round `maxIterations - 1`)
and that round's response has non-empty content that fails JSON parsing,
`Agent.query` does not raise: it returns a `FinalAnswer` wrapping the raw
content with confidence `"medium"`, empty sources, and a reasoning note
flagging the fallback. -/
theorem C7_final_round_fallback (decode : String → DecodeResult)
    (execTool : ToolCall → String) (responses : Nat → Response)
    (maxIter : Nat) (question c : String) (hm : 0 < maxIter)
    (hprev : ∀ j, j + 1 < maxIter → (responses j).toolCalls ≠ [])
    (hc : (responses (maxIter - 1)).content = some c) (hne : c ≠ "")
    (hd : decode c = .notJson) :
    (query decode execTool responses maxIter question).1
      = .final { answer := c, confidence := "medium", sources := [],
                 reasoning := some "Structured output parsing failed, using raw content" } := by
  unfold query
  rw [queryGo_fst_skip_to decode execTool responses (maxIter - 1) 0 maxIter
    [Turn.user question] (by omega)
    (fun j _ hj2 => Or.inl (hprev j (by omega)))]
  rw [show (0 + (maxIter - 1)) = maxIter - 1 by omega,
    show maxIter - (maxIter - 1) = 0 + 1 by omega]
  simp only [queryGo, not_true_eq_false, and_false, if_false, if_pos rfl]
  unfold finalStep
  rw [hc]
  simp only [truthyContent, if_neg hne]
  rw [hd]
  simp

/-- C7 witness: a one-round run whose final response is non-JSON text. -/
theorem C7_final_round_fallback_witness :
    (query (fun _ => DecodeResult.notJson) (fun _ => "")
        (fun _ => ⟨some "raw answer", []⟩) 1 "q").1
      = .final { answer := "raw answer", confidence := "medium", sources := [],
                 reasoning := some "Structured output parsing failed, using raw content" } :=
  C7_final_round_fallback (fun _ => DecodeResult.notJson) (fun _ => "")
    (fun _ => ⟨some "raw answer", []⟩) 1 "q" "raw answer" (by omega)
    (fun j hj => absurd hj (by omega)) rfl (by decide) rfl

/-- C8: on a non-final round whose response has truthy free-text content
and no tool calls, the loop terminates immediately with a `FinalAnswer`
carrying that text, confidence `"high"` and empty sources.  The statement
holds for every `decode`, so no schema validation is applied to the text. -/
theorem C8_early_exit_free_text (decode : String → DecodeResult)
    (execTool : ToolCall → String) (responses : Nat → Response)
    (maxIter : Nat) (question : String) (rd : Nat) (c : String)
    (hr : rd + 1 < maxIter)
    (hprev : ∀ j, j < rd →
      ((responses j).toolCalls ≠ [] ∨ truthyContent (responses j).content = none))
    (htc : (responses rd).toolCalls = [])
    (hc : (responses rd).content = some c) (hne : c ≠ "") :
    (query decode execTool responses maxIter question).1
      = .final { answer := c, confidence := "high", sources := [],
                 reasoning := some "Agent provided answer without using tools" } := by
  unfold query
  rw [queryGo_fst_skip_to decode execTool responses rd 0 maxIter
    [Turn.user question] (by omega) (fun j _ hj2 => hprev j (by omega))]
  obtain ⟨m, hm⟩ : ∃ m, maxIter - rd = m + 1 := ⟨maxIter - rd - 1, by omega⟩
  have hm0 : m ≠ 0 := by omega
  rw [show (0 + rd) = rd by omega, hm]
  have ht : truthyContent (responses rd).content = some c := by
    rw [hc]
    simp [truthyContent, hne]
  simp only [queryGo, htc, ne_eq, not_true_eq_false, false_and, if_false,
    if_neg hm0, ht]

/-- C8 witness: a two-round run answering with free text on round 0, under
a decoder that would reject the text — validation is bypassed. -/
theorem C8_early_exit_free_text_witness :
    (query (fun _ => DecodeResult.invalid) (fun _ => "")
        (fun _ => ⟨some "ans", []⟩) 2 "q").1
      = .final { answer := "ans", confidence := "high", sources := [],
                 reasoning := some "Agent provided answer without using tools" } :=
  C8_early_exit_free_text (fun _ => DecodeResult.invalid) (fun _ => "")
    (fun _ => ⟨some "ans", []⟩) 2 "q" 0 "ans" (by omega)
    (fun j hj => absurd hj (by omega)) rfl rfl (by decide)

/-- C10 (implicit): on a non-final round whose response has neither tool
calls nor truthy content, the loop neither returns nor raises in that
round: the empty assistant turn is still appended to the conversation
history and the loop advances to the next round — so such responses can
consume every non-final round without triggering the early-exit path. -/
theorem C10_empty_round_advances (decode : String → DecodeResult)
    (execTool : ToolCall → String) (responses : Nat → Response)
    (iter fuel : Nat) (hist : List Turn) (hfuel : fuel ≠ 0)
    (htc : (responses iter).toolCalls = [])
    (hcon : truthyContent (responses iter).content = none) :
    queryGo decode execTool responses iter (fuel + 1) hist
      = queryGo decode execTool responses (iter + 1) fuel
          (hist ++ [Turn.assistant (responses iter).content (responses iter).toolCalls]) := by
  simp only [queryGo, htc, ne_eq, not_true_eq_false, false_and, if_false,
    if_neg hfuel, hcon]

/-- C10 witness: a concrete empty round appends the empty assistant turn
and advances. -/
theorem C10_empty_round_advances_witness :
    queryGo (fun _ => DecodeResult.notJson) (fun _ => "") (fun _ => ⟨none, []⟩) 0 2 []
      = queryGo (fun _ => DecodeResult.notJson) (fun _ => "") (fun _ => ⟨none, []⟩) 1 1
          [Turn.assistant none []] :=
  C10_empty_round_advances (fun _ => DecodeResult.notJson) (fun _ => "")
    (fun _ => ⟨none, []⟩) 0 1 [] (by decide) rfl rfl

end CodeIndex
